import Mathlib

/-!
Verification development for the preference-pairing service (src/app.py).

The pairing engine (`PairingSystem`) and the two endpoints the claims are
about (`submit_preferences`, `get_results`) are embedded shallowly:

* directed-rating rows become `Rating` / `PrefRow` lists (a SQLite table is a
  list of rows in rowid order; `SELECT` without `ORDER BY` returns that order);
* Python floats become `ℚ`.  Every float the source produces here is
  `(a + b) / 2` for small integers, a sum of such values, or their quotient;
  all values the theorems below evaluate are exact in binary floating point,
  so `ℚ` arithmetic agrees with the source on them;
* Python `round(x, 2)` becomes `round2`.  Python rounds halves to even while
  `round : ℚ → ℤ` rounds halves up; the two differ only at third-decimal
  halves, which none of the evaluated values hit;
* `available = set(self.people)` iterates in a hash-seed-dependent order in
  CPython.  The loop is therefore embedded over an explicit enumeration list
  (`findPairsFrom`); `findPairs` fixes one enumeration (`List.dedup`, which
  on the duplicate-free rosters the users table allows is the roster order).
  Claims about the enumeration order use `findPairsFrom` directly;
* the `while` loop of `find_pairs` runs forever when no candidate pair beats
  the `-1` sentinel (possible only for negative stored scores): the embedding
  uses fuel and returns `none` for that diverging state.
-/

namespace PairingApp

/-- One directed rating of a single session, as `PairingSystem.load_preferences`
exposes it: submitter, target, integer score. -/
structure Rating where
  src : String
  dst : String
  score : Int
deriving DecidableEq, Repr

/-- The rating looked up by `self.preferences.get(a, {}).get(b, ...)`, as an
`Option`: `some` exactly when a row (a, b) is present.  The table's UNIQUE
(session_id, person_from, person_to) constraint makes the row unique, so
taking the first match is faithful. -/
def ratingOpt (prefs : List Rating) (a b : String) : Option Int :=
  (prefs.find? (fun r => r.src == a && r.dst == b)).map (fun r => r.score)

/-- `self.preferences.get(a, {}).get(b, 0)`: an absent rating scores 0. -/
def getScore (prefs : List Rating) (a b : String) : Int :=
  (ratingOpt prefs a b).getD 0

/-- `PairingSystem.calculate_mutual_score`. -/
def mutualScore (prefs : List Rating) (a b : String) : ℚ :=
  ((getScore prefs a b : ℚ) + (getScore prefs b a : ℚ)) / 2

/-- Python `round(x, 2)`: round to the nearest hundredth.  Python rounds
third-decimal halves to even while this definition rounds them up; the only
values the development evaluates are exact multiples of 1/2 (and their exact
averages), where both agree. -/
def round2 (q : ℚ) : ℚ := ((⌊q * 100 + 1 / 2⌋ : ℤ) : ℚ) / 100

/-- One element of the `pairs` list built by `find_pairs`: the pair, the
rounded mutual compatibility, and the two directional ratings. -/
structure PairRecord where
  a : String
  b : String
  compatibility : ℚ
  ratingA : Int
  ratingB : Int
deriving DecidableEq, Repr

/-- Python `person_a < person_b`: lexicographic comparison by code points,
which is exactly `String.lt`, stated on the underlying character lists (the
same relation; `nameLt_iff` below connects it to `<` on `String`). -/
def nameLt (a b : String) : Prop := a.data < b.data

instance (a b : String) : Decidable (nameLt a b) :=
  inferInstanceAs (Decidable (a.data < b.data))

/-- The candidate scan of the two nested `for` loops over `available`, for a
given enumeration `avail` of the set: every ordered pair with
`person_a < person_b` (the `person_a == person_b` skip is subsumed), in scan
order. -/
def candidatePairs (avail : List String) : List (String × String) :=
  avail.flatMap (fun a => avail.filterMap (fun b => if nameLt a b then some (a, b) else none))

/-- Mutual score of a candidate pair. -/
def pairScore (prefs : List Rating) (p : String × String) : ℚ :=
  mutualScore prefs p.1 p.2

/-- One step of the argmax scan: update `(best_pair, best_score)` when the
candidate's score is strictly greater. -/
def bestStep (prefs : List Rating) (acc : Option (String × String) × ℚ)
    (p : String × String) : Option (String × String) × ℚ :=
  if acc.2 < pairScore prefs p then (some p, pairScore prefs p) else acc

/-- The inner argmax scan of `find_pairs`: starts from
`best_pair = None, best_score = -1`. -/
def selectBest (prefs : List Rating) (avail : List String) :
    Option (String × String) × ℚ :=
  (candidatePairs avail).foldl (bestStep prefs) (none, -1)

/-- The record appended for the selected pair: `round(best_score, 2)` and the
two directional ratings re-read from the preferences. -/
def recordOf (prefs : List Rating) (avail : List String) (a b : String) : PairRecord :=
  { a := a, b := b, compatibility := round2 (selectBest prefs avail).2,
    ratingA := getScore prefs a b, ratingB := getScore prefs b a }

/-- The `while len(available) >= 2` loop of `find_pairs` over an explicit
enumeration of the `available` set, with fuel.  `none` stands for the
source's infinite loop in the state where no candidate beats the `-1`
sentinel; whenever a pair is selected each round, fuel `avail.length + 1`
is enough (proved below). -/
def findPairsLoop (prefs : List Rating) :
    Nat → List String → List PairRecord → Option (List PairRecord × Option String)
  | 0, _, _ => none
  | fuel + 1, avail, acc =>
    if 2 ≤ avail.length then
      match (selectBest prefs avail).1 with
      | some (a, b) =>
        findPairsLoop prefs fuel ((avail.erase a).erase b)
          (acc ++ [recordOf prefs avail a b])
      | none => none
    else
      some (acc, avail.head?)

/-- `PairingSystem.find_pairs` on an explicit enumeration of
`set(self.people)`.  The leftover `list(available)[0] if available else None`
is `avail.head?`. -/
def findPairsFrom (prefs : List Rating) (avail : List String) :
    Option (List PairRecord × Option String) :=
  findPairsLoop prefs (avail.length + 1) avail []

/-- `PairingSystem.find_pairs`: `available = set(self.people)` deduplicates
the roster; one enumeration order is fixed (see the header comment). -/
def findPairs (prefs : List Rating) (people : List String) :
    Option (List PairRecord × Option String) :=
  findPairsFrom prefs people.dedup

/-- The dictionary returned by `PairingSystem.get_results`. -/
structure Results where
  pairs : List PairRecord
  unpaired : Option String
  totalCompatibility : ℚ
  averageCompatibility : ℚ
  numPairs : Nat
deriving DecidableEq, Repr

/-- `PairingSystem.get_results` over an explicit set enumeration. -/
def getResultsFrom (prefs : List Rating) (avail : List String) : Option Results :=
  match findPairsFrom prefs avail with
  | none => none
  | some (pairs, unpaired) =>
    let total : ℚ := (pairs.map (fun p => p.compatibility)).sum
    let avg : ℚ := if pairs.length = 0 then 0 else total / pairs.length
    some { pairs := pairs, unpaired := unpaired,
           totalCompatibility := round2 total,
           averageCompatibility := round2 avg,
           numPairs := pairs.length }

/-- `PairingSystem.get_results`. -/
def getResults (prefs : List Rating) (people : List String) : Option Results :=
  getResultsFrom prefs people.dedup

/-- A row of the `users` table; the credential column is irrelevant to the
claims and omitted. -/
structure UserRow where
  sessionId : String
  username : String
  hasSubmitted : Bool
deriving DecidableEq, Repr

/-- A row of the `preferences` table (`submitted_at` omitted: never read). -/
structure PrefRow where
  sessionId : String
  personFrom : String
  personTo : String
  score : Int
deriving DecidableEq, Repr

/-- The persistent state the two modelled endpoints read and write.  The
`sessions` table is omitted: neither `submit_preferences` nor `get_results`
ever queries it (which is exactly what the session-existence claims probe);
SQLite's foreign keys are off by default and never enabled by the source, so
inserts under an unknown session id succeed. -/
structure DB where
  users : List UserRow
  prefs : List PrefRow
deriving DecidableEq, Repr

/-- `PairingSystem.get_people`: the session's usernames in table order. -/
def peopleFor (db : DB) (sid : String) : List String :=
  (db.users.filter (fun u => u.sessionId == sid)).map (fun u => u.username)

/-- `PairingSystem.load_preferences`, flattened to rows. -/
def prefsFor (db : DB) (sid : String) : List Rating :=
  (db.prefs.filter (fun r => r.sessionId == sid)).map
    (fun r => { src := r.personFrom, dst := r.personTo, score := r.score })

/-- `SELECT COUNT(*) FROM users WHERE session_id = ?`. -/
def totalCount (db : DB) (sid : String) : Nat :=
  (db.users.filter (fun u => u.sessionId == sid)).length

/-- `SELECT COUNT(*) FROM users WHERE session_id = ? AND has_submitted = 1`. -/
def submittedCount (db : DB) (sid : String) : Nat :=
  (db.users.filter (fun u => u.sessionId == sid && u.hasSubmitted)).length

/-- Responses of the `/api/preferences/submit` endpoint: the 400 for a
missing/empty field, or the 200 payload. -/
inductive SubmitResponse where
  | invalidInput
  | ok (submitted total : Nat) (allSubmitted : Bool)
deriving DecidableEq, Repr

/-- The per-entry guard `person_to != username and 0 <= score <= 100`. -/
def validEntry (user : String) (e : String × Int) : Bool :=
  e.1 != user && decide (0 ≤ e.2) && decide (e.2 ≤ 100)

/-- The rows the submit loop inserts: the valid entries of the mapping, in
its iteration order, under (session, submitter). -/
def validRows (sid user : String) (m : List (String × Int)) : List PrefRow :=
  (m.filter (validEntry user)).map
    (fun e => { sessionId := sid, personFrom := user, personTo := e.1, score := e.2 })

/-- `UPDATE users SET has_submitted = 1 WHERE session_id = ? AND username = ?`. -/
def updatedUsers (db : DB) (sid user : String) : List UserRow :=
  db.users.map (fun u =>
    if u.sessionId == sid && u.username == user then { u with hasSubmitted := true } else u)

/-- The database state after the submit transaction: delete the submitter's
old rows, insert the valid new ones, flip the flag. -/
def submitDB (db : DB) (sid user : String) (m : List (String × Int)) : DB :=
  { users := updatedUsers db sid user,
    prefs := db.prefs.filter (fun r => !(r.sessionId == sid && r.personFrom == user))
      ++ validRows sid user m }

/-- The `submit_preferences` endpoint.  The ratings mapping is a JSON object,
so its keys (targets) are pairwise distinct; theorems that rely on the
UNIQUE(session_id, person_from, person_to) constraint never firing carry that
as a hypothesis.  `not all([session_id, username, preferences])` rejects empty
strings and an empty mapping.  Counts are taken after the committed update,
as in the source. -/
def submitPreferences (db : DB) (sid user : String) (m : List (String × Int)) :
    DB × SubmitResponse :=
  if sid == "" || user == "" || m.isEmpty then (db, SubmitResponse.invalidInput)
  else
    (submitDB db sid user m,
     SubmitResponse.ok (submittedCount (submitDB db sid user m) sid)
       (totalCount (submitDB db sid user m) sid)
       (submittedCount (submitDB db sid user m) sid == totalCount (submitDB db sid user m) sid))

/-- Responses of the `/api/results/<session_id>` endpoint: the 400 "not all
preferences submitted" payload, the 200 results, or the diverging state of
`find_pairs` (see `findPairsLoop`). -/
inductive ResultsResponse where
  | notReady (submitted total : Nat)
  | ok (results : Results)
  | noTermination
deriving DecidableEq, Repr

/-- The `get_results` endpoint: the only gate is
`submitted_users != total_users`. -/
def getResultsEndpoint (db : DB) (sid : String) : ResultsResponse :=
  if submittedCount db sid ≠ totalCount db sid then
    ResultsResponse.notReady (submittedCount db sid) (totalCount db sid)
  else
    match getResults (prefsFor db sid) (peopleFor db sid) with
    | some r => ResultsResponse.ok r
    | none => ResultsResponse.noTermination

/-- The directed-rating rows a submitter owns in a session. -/
def rowsFor (db : DB) (sid user : String) : List PrefRow :=
  db.prefs.filter (fun r => r.sessionId == sid && r.personFrom == user)

end PairingApp

namespace PairingApp

/-- The §8 scenario roster. -/
def scenarioPeople : List String := ["Alice", "Bob", "Charlie", "Diana"]

/-- The §8 scenario ratings: Alice→Bob=90, Bob→Alice=80, Charlie→Diana=95,
Diana→Charlie=85, all others absent (scored 0). -/
def scenarioPrefs : List Rating :=
  [⟨"Alice", "Bob", 90⟩, ⟨"Bob", "Alice", 80⟩,
   ⟨"Charlie", "Diana", 95⟩, ⟨"Diana", "Charlie", 85⟩]

end PairingApp

namespace PairingApp

/-- C1 (counterexample): on the §8 scenario the code does NOT return the pairs
in the claimed order [(Alice, Bob), (Charlie, Diana)] — the greedy loop picks
the highest-scoring pair (Charlie, Diana, 90) first. -/
theorem C1_counterexample :
    getResults scenarioPrefs scenarioPeople ≠
      some { pairs := [⟨"Alice", "Bob", 85, 90, 80⟩, ⟨"Charlie", "Diana", 90, 95, 85⟩],
             unpaired := none, totalCompatibility := 175,
             averageCompatibility := 175 / 2, numPairs := 2 } := by
  with_unfolding_all decide

/-- C1 (amended): the scenario returns the pairs in descending greedy order,
(Charlie, Diana) with compatibility 90 first, then (Alice, Bob) with 85;
unpaired is null and the average compatibility is 87.5. -/
theorem C1_scenario :
    getResults scenarioPrefs scenarioPeople =
      some { pairs := [⟨"Charlie", "Diana", 90, 95, 85⟩, ⟨"Alice", "Bob", 85, 90, 80⟩],
             unpaired := none, totalCompatibility := 175,
             averageCompatibility := 175 / 2, numPairs := 2 } := by
  with_unfolding_all decide

/-- `nameLt` is the order `<` of `String`. -/
theorem nameLt_iff (a b : String) : nameLt a b ↔ a < b :=
  Iff.symm String.lt_iff_toList_lt

/-- `round2` fixes 0. -/
theorem round2_zero : round2 0 = 0 := by
  with_unfolding_all decide

/-- A roster enumeration with fewer than two members produces the degenerate
result: no pairs, the head (if any) unpaired, zero totals. -/
theorem getResultsFrom_short (prefs : List Rating) (avail : List String)
    (h : avail.length < 2) :
    getResultsFrom prefs avail =
      some { pairs := [], unpaired := avail.head?, totalCompatibility := 0,
             averageCompatibility := 0, numPairs := 0 } := by
  unfold getResultsFrom findPairsFrom
  rw [findPairsLoop, if_neg (by omega)]
  simp [round2_zero]

/-- Short lists have no duplicates. -/
theorem nodup_of_length_le_one {l : List String} (h : l.length ≤ 1) : l.Nodup := by
  match l, h with
  | [], _ => exact List.nodup_nil
  | [x], _ => exact List.nodup_singleton x

/-- C9: for a roster of size 0 or 1 and any ratings, `get_results` returns a
valid degenerate result: zero pairs, the sole member (or nothing) unpaired,
total and average compatibility 0. -/
theorem C9_degenerate_roster (prefs : List Rating) (people : List String)
    (h : people.length ≤ 1) :
    getResults prefs people =
      some { pairs := [], unpaired := people.head?, totalCompatibility := 0,
             averageCompatibility := 0, numPairs := 0 } := by
  unfold getResults
  rw [List.dedup_eq_self.mpr (nodup_of_length_le_one h)]
  exact getResultsFrom_short prefs people (by omega)

/-- C9 witness: a one-member roster. -/
theorem C9_degenerate_roster_witness :
    (["Solo"] : List String).length ≤ 1 ∧
      getResults [] ["Solo"] =
        some { pairs := [], unpaired := some "Solo", totalCompatibility := 0,
               averageCompatibility := 0, numPairs := 0 } :=
  ⟨by decide, C9_degenerate_roster [] ["Solo"] (by decide)⟩

/-- A database holding one session "s1"; no rows at all mention "ghost". -/
def ghostDB : DB :=
  { users := [{ sessionId := "s1", username := "Alice", hasSubmitted := false }],
    prefs := [] }

/-- C3 (counterexample): a results request for a session id with roster size 0
(the unknown id "ghost"; both counts are 0) is NOT rejected as not ready: the
gate in `get_results` only compares the two counts, so 0 = 0 passes it and a
degenerate pairing result is produced. -/
theorem C3_counterexample :
    getResultsEndpoint ghostDB "ghost" =
      ResultsResponse.ok { pairs := [], unpaired := none, totalCompatibility := 0,
                           averageCompatibility := 0, numPairs := 0 } := by
  with_unfolding_all decide

/-- C4 (counterexample): a submission naming a session id "ghost" that no
session row carries does NOT fail: the endpoint never checks session
existence, stores the rating row under the phantom id, and reports success
with counts 0/0 and all_submitted true. -/
theorem C4_counterexample :
    submitPreferences ghostDB "ghost" "Bob" [("Alice", 50)] =
      ({ users := [{ sessionId := "s1", username := "Alice", hasSubmitted := false }],
         prefs := [{ sessionId := "ghost", personFrom := "Bob",
                     personTo := "Alice", score := 50 }] },
       SubmitResponse.ok 0 0 true) := by
  with_unfolding_all decide

/-- The argmax fold either keeps its accumulator, every scanned score being
at most the accumulated best, or returns the first scanned candidate
attaining the maximum, strictly above the accumulated best. -/
theorem foldBest_cases (prefs : List Rating) (l : List (String × String))
    (ob : Option (String × String)) (bs : ℚ) :
    (l.foldl (bestStep prefs) (ob, bs) = (ob, bs) ∧ ∀ q ∈ l, pairScore prefs q ≤ bs)
    ∨ (∃ l₁ p l₂, l = l₁ ++ p :: l₂
        ∧ l.foldl (bestStep prefs) (ob, bs) = (some p, pairScore prefs p)
        ∧ bs < pairScore prefs p
        ∧ (∀ q ∈ l₁, pairScore prefs q < pairScore prefs p)
        ∧ (∀ q ∈ l₂, pairScore prefs q ≤ pairScore prefs p)) := by
  induction l generalizing ob bs with
  | nil => exact Or.inl ⟨rfl, by simp⟩
  | cons p l ih =>
    rw [List.foldl_cons]
    by_cases hp : bs < pairScore prefs p
    · rw [show bestStep prefs (ob, bs) p = (some p, pairScore prefs p) from by
        simp [bestStep, hp]]
      rcases ih (some p) (pairScore prefs p) with ⟨heq, hall⟩ |
        ⟨l₁, q, l₂, hsplit, heq, hlt, h₁, h₂⟩
      · exact Or.inr ⟨[], p, l, by simp, heq, hp, by simp, hall⟩
      · refine Or.inr ⟨p :: l₁, q, l₂, by simp [hsplit], heq, lt_trans hp hlt, ?_, h₂⟩
        intro r hr
        rcases List.mem_cons.mp hr with hr | hr
        · exact hr ▸ hlt
        · exact h₁ r hr
    · rw [show bestStep prefs (ob, bs) p = (ob, bs) from by simp [bestStep, hp]]
      rcases ih ob bs with ⟨heq, hall⟩ | ⟨l₁, q, l₂, hsplit, heq, hlt, h₁, h₂⟩
      · refine Or.inl ⟨heq, ?_⟩
        intro r hr
        rcases List.mem_cons.mp hr with hr | hr
        · exact hr ▸ not_lt.mp hp
        · exact hall r hr
      · refine Or.inr ⟨p :: l₁, q, l₂, by simp [hsplit], heq, hlt, ?_, h₂⟩
        intro r hr
        rcases List.mem_cons.mp hr with hr | hr
        · exact hr ▸ lt_of_le_of_lt (not_lt.mp hp) hlt
        · exact h₁ r hr

/-- The selected pair is the first candidate, in scan order, attaining the
maximal mutual score, and that score beats the `-1` sentinel. -/
theorem selectBest_spec (prefs : List Rating) (avail : List String)
    (a b : String) (h : (selectBest prefs avail).1 = some (a, b)) :
    ∃ l₁ l₂, candidatePairs avail = l₁ ++ (a, b) :: l₂
      ∧ (selectBest prefs avail).2 = pairScore prefs (a, b)
      ∧ (-1 : ℚ) < pairScore prefs (a, b)
      ∧ (∀ q ∈ l₁, pairScore prefs q < pairScore prefs (a, b))
      ∧ (∀ q ∈ l₂, pairScore prefs q ≤ pairScore prefs (a, b)) := by
  unfold selectBest at h ⊢
  rcases foldBest_cases prefs (candidatePairs avail) none (-1) with ⟨heq, _⟩ |
    ⟨l₁, p, l₂, hsplit, heq, hlt, h₁, h₂⟩
  · rw [heq] at h
    simp at h
  · rw [heq] at h ⊢
    simp only [Option.some.injEq] at h
    subst h
    exact ⟨l₁, l₂, hsplit, rfl, hlt, h₁, h₂⟩

/-- Membership in the candidate scan. -/
theorem mem_candidatePairs {avail : List String} {p : String × String} :
    p ∈ candidatePairs avail ↔ p.1 ∈ avail ∧ p.2 ∈ avail ∧ nameLt p.1 p.2 := by
  obtain ⟨a, b⟩ := p
  simp only [candidatePairs, List.mem_flatMap, List.mem_filterMap]
  constructor
  · rintro ⟨x, hx, y, hy, hxy⟩
    by_cases hlt : nameLt x y
    · rw [if_pos hlt] at hxy
      obtain ⟨rfl, rfl⟩ : x = a ∧ y = b := by simpa [Prod.ext_iff] using hxy
      exact ⟨hx, hy, hlt⟩
    · rw [if_neg hlt] at hxy
      exact absurd hxy (by simp)
  · rintro ⟨ha, hb, hab⟩
    exact ⟨a, ha, b, hb, by rw [if_pos hab]⟩

/-- The selected pair comes from the available set, lexicographically
ordered. -/
theorem selectBest_mem (prefs : List Rating) {avail : List String} {a b : String}
    (h : (selectBest prefs avail).1 = some (a, b)) :
    a ∈ avail ∧ b ∈ avail ∧ nameLt a b := by
  obtain ⟨l₁, l₂, hsplit, _, _, _, _⟩ := selectBest_spec prefs avail a b h
  have hmem : (a, b) ∈ candidatePairs avail := by
    rw [hsplit]
    exact List.mem_append_right _ (List.mem_cons_self _ _)
  exact mem_candidatePairs.mp hmem

/-- When some candidate beats the sentinel, a pair is selected. -/
theorem selectBest_isSome (prefs : List Rating) {avail : List String}
    {c : String × String} (hc : c ∈ candidatePairs avail)
    (hsc : (-1 : ℚ) < pairScore prefs c) :
    ∃ a b, (selectBest prefs avail).1 = some (a, b) := by
  rcases foldBest_cases prefs (candidatePairs avail) none (-1) with ⟨_, hall⟩ |
    ⟨l₁, p, l₂, _, heq, _, _, _⟩
  · exact absurd (hall c hc) (not_le.mpr hsc)
  · refine ⟨p.1, p.2, ?_⟩
    unfold selectBest
    rw [heq]

/-- C2 (counterexample): with no ratings stored, every pair ties at mutual
score 0, and two enumeration orders of the same available set (each a
reachable iteration order of a CPython set, which is hash-seed dependent
across processes) give different pair lists: the output is not a function of
the people set and the ratings alone, so no fixed deterministic total order
over unordered pairs governs the tie-break. -/
theorem C2_counterexample :
    getResultsFrom [] ["A", "B", "C", "D"] ≠ getResultsFrom [] ["C", "D", "A", "B"] := by
  with_unfolding_all decide

/-- C2 (amended): for a fixed enumeration order of the available set the
selection is deterministic — the pair picked is the first candidate in scan
order attaining the maximal mutual score; but the enumeration order is the
environment-dependent set iteration order, not a fixed total order over
names, so only runs sharing that order return identical results. -/
theorem C2_first_max_in_scan_order (prefs : List Rating) (avail : List String)
    (a b : String) (h : (selectBest prefs avail).1 = some (a, b)) :
    ∃ l₁ l₂, candidatePairs avail = l₁ ++ (a, b) :: l₂
      ∧ (∀ q ∈ l₁, pairScore prefs q < pairScore prefs (a, b))
      ∧ (∀ q ∈ l₂, pairScore prefs q ≤ pairScore prefs (a, b)) := by
  obtain ⟨l₁, l₂, hsplit, _, _, h₁, h₂⟩ := selectBest_spec prefs avail a b h
  exact ⟨l₁, l₂, hsplit, h₁, h₂⟩

/-- C2 witness: a two-member enumeration. -/
theorem C2_first_max_in_scan_order_witness :
    (selectBest [] ["A", "B"]).1 = some ("A", "B") ∧
      ∃ l₁ l₂, candidatePairs ["A", "B"] = l₁ ++ ("A", "B") :: l₂
        ∧ (∀ q ∈ l₁, pairScore [] q < pairScore [] ("A", "B"))
        ∧ (∀ q ∈ l₂, pairScore [] q ≤ pairScore [] ("A", "B")) :=
  ⟨by with_unfolding_all decide,
   C2_first_max_in_scan_order [] ["A", "B"] "A" "B" (by with_unfolding_all decide)⟩

/-- Non-negative stored scores make every lookup non-negative. -/
theorem getScore_nonneg {prefs : List Rating} (h : ∀ r ∈ prefs, 0 ≤ r.score)
    (a b : String) : 0 ≤ getScore prefs a b := by
  unfold getScore ratingOpt
  cases hf : prefs.find? (fun r => r.src == a && r.dst == b) with
  | none => simp
  | some r =>
    simp only [Option.map_some', Option.getD_some]
    exact h r (List.mem_of_find?_eq_some hf)

/-- Non-negative stored scores make every mutual score non-negative. -/
theorem mutualScore_nonneg {prefs : List Rating} (h : ∀ r ∈ prefs, 0 ≤ r.score)
    (a b : String) : 0 ≤ mutualScore prefs a b := by
  unfold mutualScore
  have h1 := getScore_nonneg h a b
  have h2 := getScore_nonneg h b a
  have hc1 : (0 : ℚ) ≤ (getScore prefs a b : ℚ) := by exact_mod_cast h1
  have hc2 : (0 : ℚ) ≤ (getScore prefs b a : ℚ) := by exact_mod_cast h2
  have := add_nonneg hc1 hc2
  positivity

/-- A duplicate-free enumeration with at least two members yields at least
one candidate pair. -/
theorem exists_candidate {avail : List String} (hn : avail.Nodup)
    (h2 : 2 ≤ avail.length) : ∃ c, c ∈ candidatePairs avail := by
  match avail, hn, h2 with
  | a :: b :: rest, hn, _ =>
    have hab : a ≠ b := by
      intro e
      subst e
      simp [List.nodup_cons] at hn
    rcases lt_or_gt_of_ne hab with hlt | hgt
    · exact ⟨(a, b), mem_candidatePairs.mpr ⟨by simp, by simp, (nameLt_iff a b).mpr hlt⟩⟩
    · exact ⟨(b, a), mem_candidatePairs.mpr ⟨by simp, by simp, (nameLt_iff b a).mpr hgt⟩⟩

/-- Unfolding the loop at a selection step. -/
theorem findPairsLoop_step (prefs : List Rating) (fuel : Nat) (avail : List String)
    (acc : List PairRecord) (a b : String) (h2 : 2 ≤ avail.length)
    (hsel : (selectBest prefs avail).1 = some (a, b)) :
    findPairsLoop prefs (fuel + 1) avail acc =
      findPairsLoop prefs fuel ((avail.erase a).erase b)
        (acc ++ [recordOf prefs avail a b]) := by
  rw [findPairsLoop, if_pos h2, hsel]

/-- Unfolding the loop when no candidate beats the sentinel (the source loops
forever). -/
theorem findPairsLoop_stuck (prefs : List Rating) (fuel : Nat) (avail : List String)
    (acc : List PairRecord) (h2 : 2 ≤ avail.length)
    (hsel : (selectBest prefs avail).1 = none) :
    findPairsLoop prefs (fuel + 1) avail acc = none := by
  rw [findPairsLoop, if_pos h2, hsel]

/-- Unfolding the loop below two members. -/
theorem findPairsLoop_done (prefs : List Rating) (fuel : Nat) (avail : List String)
    (acc : List PairRecord) (h2 : avail.length < 2) :
    findPairsLoop prefs (fuel + 1) avail acc = some (acc, avail.head?) := by
  rw [findPairsLoop, if_neg (by omega)]

/-- Removing the two selected members shortens the enumeration by two. -/
theorem erase_two_length {avail : List String} {a b : String}
    (ha : a ∈ avail) (hb2 : b ∈ avail.erase a) :
    ((avail.erase a).erase b).length + 2 = avail.length := by
  have hp1 : 0 < avail.length := List.length_pos_of_mem ha
  have hp2 : 0 < (avail.erase a).length := List.length_pos_of_mem hb2
  rw [List.length_erase_of_mem ha] at hp2
  rw [List.length_erase_of_mem hb2, List.length_erase_of_mem ha]
  omega

/-- With non-negative stored scores the loop always reaches the below-two
state: fuel one above the enumeration length suffices. -/
theorem findPairsLoop_isSome (prefs : List Rating) (hpref : ∀ r ∈ prefs, 0 ≤ r.score) :
    ∀ fuel (avail : List String) (acc : List PairRecord), avail.Nodup →
      avail.length < fuel →
      ∃ out, findPairsLoop prefs fuel avail acc = some out := by
  intro fuel
  induction fuel with
  | zero =>
    intro avail acc _ hlt
    exact absurd hlt (Nat.not_lt_zero _)
  | succ fuel ih =>
    intro avail acc hn hlt
    by_cases h2 : 2 ≤ avail.length
    · obtain ⟨c, hc⟩ := exists_candidate hn h2
      have hsc : (-1 : ℚ) < pairScore prefs c :=
        lt_of_lt_of_le (by norm_num) (mutualScore_nonneg hpref c.1 c.2)
      obtain ⟨a, b, hsel⟩ := selectBest_isSome prefs hc hsc
      obtain ⟨ha, hb, hab⟩ := selectBest_mem prefs hsel
      have hne : a ≠ b := ne_of_lt ((nameLt_iff a b).mp hab)
      have hb2 : b ∈ avail.erase a := (List.mem_erase_of_ne hne.symm).mpr hb
      rw [findPairsLoop_step prefs fuel avail acc a b h2 hsel]
      refine ih _ _ ((hn.erase a).erase b) ?_
      have := erase_two_length ha hb2
      omega
    · exact ⟨(acc, avail.head?), findPairsLoop_done prefs fuel avail acc (by omega)⟩

/-- C10: when every stored score is non-negative every mutual score is at
least 0, hence beats the `-1` sentinel, so whenever at least two people
remain a best pair is selected, two people are removed, and the greedy loop
terminates with a result. -/
theorem C10_termination (prefs : List Rating) (people : List String)
    (hnn : ∀ r ∈ prefs, 0 ≤ r.score) :
    ∃ out, findPairs prefs people = some out := by
  unfold findPairs findPairsFrom
  exact findPairsLoop_isSome prefs hnn _ _ [] (List.nodup_dedup people) (Nat.lt_succ_self _)

/-- C10 witness. -/
theorem C10_termination_witness :
    (∀ r ∈ ([] : List Rating), 0 ≤ r.score) ∧
      ∃ out, findPairs [] ["A", "B", "C"] = some out :=
  ⟨by simp, C10_termination [] ["A", "B", "C"] (by simp)⟩

/-- Whatever the loop returns extends the accumulator, and the people in the
new pairs together with the leftover are a permutation of the enumeration. -/
theorem findPairsLoop_perm (prefs : List Rating) :
    ∀ fuel (avail : List String) (acc pairs : List PairRecord) (unp : Option String),
      avail.Nodup →
      findPairsLoop prefs fuel avail acc = some (pairs, unp) →
      ∃ newPairs, pairs = acc ++ newPairs ∧
        List.Perm (newPairs.flatMap (fun p => [p.a, p.b]) ++ unp.toList) avail := by
  intro fuel
  induction fuel with
  | zero =>
    intro avail acc pairs unp _ heq
    simp [findPairsLoop] at heq
  | succ fuel ih =>
    intro avail acc pairs unp hn heq
    by_cases h2 : 2 ≤ avail.length
    · cases hsel : (selectBest prefs avail).1 with
      | none =>
        rw [findPairsLoop_stuck prefs fuel avail acc h2 hsel] at heq
        exact absurd heq (by simp)
      | some ab =>
        obtain ⟨a, b⟩ := ab
        obtain ⟨ha, hb, hab⟩ := selectBest_mem prefs hsel
        have hne : a ≠ b := ne_of_lt ((nameLt_iff a b).mp hab)
        have hb2 : b ∈ avail.erase a := (List.mem_erase_of_ne hne.symm).mpr hb
        rw [findPairsLoop_step prefs fuel avail acc a b h2 hsel] at heq
        obtain ⟨newPairs, hpairs, hperm⟩ := ih _ _ _ _ ((hn.erase a).erase b) heq
        refine ⟨recordOf prefs avail a b :: newPairs, ?_, ?_⟩
        · rw [hpairs]
          simp
        · have he : (recordOf prefs avail a b :: newPairs).flatMap (fun p => [p.a, p.b])
              ++ unp.toList
              = a :: b :: (newPairs.flatMap (fun p => [p.a, p.b]) ++ unp.toList) := by
            simp [recordOf]
          rw [he]
          have p1 : List.Perm (a :: b :: (newPairs.flatMap (fun p => [p.a, p.b]) ++ unp.toList))
              (a :: b :: ((avail.erase a).erase b)) := (hperm.cons b).cons a
          have p2 : List.Perm (a :: b :: ((avail.erase a).erase b)) (a :: avail.erase a) :=
            ((List.perm_cons_erase hb2).symm).cons a
          have p3 : List.Perm (a :: avail.erase a) avail := (List.perm_cons_erase ha).symm
          exact (p1.trans p2).trans p3
    · rw [findPairsLoop_done prefs fuel avail acc (by omega)] at heq
      obtain ⟨rfl, rfl⟩ : acc = pairs ∧ avail.head? = unp := by simpa using heq
      refine ⟨[], by simp, ?_⟩
      rcases avail with _ | ⟨x, xs⟩
      · simp
      · rcases xs with _ | ⟨y, ys⟩
        · simp
        · exact absurd (by simp : 2 ≤ (x :: y :: ys).length) h2

/-- Each pair record occupies two roster slots. -/
theorem flatMap_pairs_length (L : List PairRecord) :
    (L.flatMap (fun p => [p.a, p.b])).length = 2 * L.length := by
  induction L with
  | nil => simp
  | cons p L ih =>
    simp [ih]
    omega

/-- C5: on a duplicate-free roster with stored scores in [0, 100] the pairing
covers the roster exactly: the people named by the pairs plus the optional
unpaired member are a permutation of the roster without repetition, and
`2 * numPairs + (1 if unpaired else 0) = |people|`. -/
theorem C5_coverage (prefs : List Rating) (people : List String)
    (hnd : people.Nodup) (hrange : ∀ r ∈ prefs, 0 ≤ r.score ∧ r.score ≤ 100) :
    ∃ pairs unp, findPairs prefs people = some (pairs, unp)
      ∧ List.Perm (pairs.flatMap (fun p => [p.a, p.b]) ++ unp.toList) people
      ∧ (pairs.flatMap (fun p => [p.a, p.b]) ++ unp.toList).Nodup
      ∧ 2 * pairs.length + (if unp.isSome then 1 else 0) = people.length := by
  have hd : people.dedup = people := List.dedup_eq_self.mpr hnd
  obtain ⟨out, hout⟩ := findPairsLoop_isSome prefs (fun r hr => (hrange r hr).1)
    (people.length + 1) people [] hnd (Nat.lt_succ_self _)
  obtain ⟨pairs, unp⟩ := out
  have hfp : findPairs prefs people = some (pairs, unp) := by
    unfold findPairs findPairsFrom
    rw [hd]
    exact hout
  obtain ⟨newPairs, hpairs, hperm⟩ :=
    findPairsLoop_perm prefs (people.length + 1) people [] pairs unp hnd hout
  rw [List.nil_append] at hpairs
  rw [← hpairs] at hperm
  refine ⟨pairs, unp, hfp, hperm, hperm.nodup_iff.mpr hnd, ?_⟩
  have hlen := hperm.length_eq
  rw [List.length_append, flatMap_pairs_length] at hlen
  have htl : unp.toList.length = if unp.isSome then 1 else 0 := by
    cases unp <;> rfl
  omega

/-- C5 witness. -/
theorem C5_coverage_witness :
    (["Ann", "Ben"] : List String).Nodup ∧
      (∀ r ∈ ([] : List Rating), 0 ≤ r.score ∧ r.score ≤ 100) ∧
      ∃ pairs unp, findPairs [] ["Ann", "Ben"] = some (pairs, unp)
        ∧ List.Perm (pairs.flatMap (fun p => [p.a, p.b]) ++ unp.toList) ["Ann", "Ben"]
        ∧ (pairs.flatMap (fun p => [p.a, p.b]) ++ unp.toList).Nodup
        ∧ 2 * pairs.length + (if unp.isSome then 1 else 0) = (["Ann", "Ben"] : List String).length :=
  ⟨by decide, by simp, C5_coverage [] ["Ann", "Ben"] (by decide) (by simp)⟩

/-- C8: the mutual score is the average of the two directional ratings, an
absent rating counting 0, and it is symmetric in its two arguments. -/
theorem C8_mutualScore_avg_symm (prefs : List Rating) (a b : String) :
    mutualScore prefs a b
        = (((ratingOpt prefs a b).getD 0 : ℚ) + ((ratingOpt prefs b a).getD 0 : ℚ)) / 2
      ∧ mutualScore prefs a b = mutualScore prefs b a := by
  refine ⟨rfl, ?_⟩
  unfold mutualScore
  ring

/-- A user list with no row for `sid` has zero counts for `sid`. -/
theorem counts_zero_of_no_user {db : DB} {sid : String}
    (h : ∀ u ∈ db.users, (u.sessionId == sid) = false) :
    totalCount db sid = 0 ∧ submittedCount db sid = 0 := by
  constructor
  · unfold totalCount
    rw [List.filter_eq_nil_iff.mpr (fun u hu => by simp [h u hu])]
    rfl
  · unfold submittedCount
    rw [List.filter_eq_nil_iff.mpr (fun u hu => by simp [h u hu])]
    rfl

/-- A non-degenerate submission takes the else branch. -/
theorem submit_cond_false {sid user : String} {m : List (String × Int)}
    (hs : sid ≠ "") (hu : user ≠ "") (hm : m ≠ []) :
    (sid == "" || user == "" || m.isEmpty) = false := by
  simp [hs, hu, hm]

/-- A non-degenerate submission commits the transaction state. -/
theorem submit_fst {db : DB} {sid user : String} {m : List (String × Int)}
    (hs : sid ≠ "") (hu : user ≠ "") (hm : m ≠ []) :
    (submitPreferences db sid user m).1 = submitDB db sid user m := by
  unfold submitPreferences
  rw [submit_cond_false hs hu hm]
  rfl

/-- A non-degenerate submission answers 200 with the fresh counts. -/
theorem submit_snd {db : DB} {sid user : String} {m : List (String × Int)}
    (hs : sid ≠ "") (hu : user ≠ "") (hm : m ≠ []) :
    (submitPreferences db sid user m).2 =
      SubmitResponse.ok (submittedCount (submitDB db sid user m) sid)
        (totalCount (submitDB db sid user m) sid)
        (submittedCount (submitDB db sid user m) sid
          == totalCount (submitDB db sid user m) sid) := by
  unfold submitPreferences
  rw [submit_cond_false hs hu hm]
  rfl

/-- After the transaction, the submitter's rows are exactly the valid new
entries. -/
theorem rowsFor_submitDB (db : DB) (sid user : String) (m : List (String × Int)) :
    rowsFor (submitDB db sid user m) sid user = validRows sid user m := by
  unfold rowsFor submitDB
  rw [List.filter_append]
  have h1 : (db.prefs.filter (fun r => !(r.sessionId == sid && r.personFrom == user))).filter
      (fun r => r.sessionId == sid && r.personFrom == user) = [] := by
    apply List.filter_eq_nil_iff.mpr
    intro r hr
    have h2 := (List.mem_filter.mp hr).2
    simp only [Bool.not_eq_eq_eq_not, Bool.not_true] at h2
    simp [h2]
  have h2 : (validRows sid user m).filter
      (fun r => r.sessionId == sid && r.personFrom == user) = validRows sid user m := by
    apply List.filter_eq_self.mpr
    intro r hr
    obtain ⟨e, he, rfl⟩ := List.mem_map.mp hr
    simp
  rw [h1, h2, List.nil_append]

/-- C3 (amended): the readiness gate of `get_results` is only
`submittedCount == totalCount`, with no `totalCount > 0` condition; a session
whose roster size is 0 (e.g. an unknown session id) therefore passes the gate
(0 = 0) and receives the degenerate ok result — no pairs, nothing unpaired,
zero totals — instead of a rejection. -/
theorem C3_gate_without_nonempty_check (db : DB) (sid : String)
    (h : totalCount db sid = 0) :
    getResultsEndpoint db sid =
      ResultsResponse.ok { pairs := [], unpaired := none, totalCompatibility := 0,
                           averageCompatibility := 0, numPairs := 0 } := by
  have hf : db.users.filter (fun u => u.sessionId == sid) = [] := by
    unfold totalCount at h
    exact List.length_eq_zero.mp h
  have hnone : ∀ u ∈ db.users, (u.sessionId == sid) = false := by
    intro u hu
    by_contra hbad
    have hmem : u ∈ db.users.filter (fun u => u.sessionId == sid) :=
      List.mem_filter.mpr ⟨hu, by simpa using hbad⟩
    rw [hf] at hmem
    exact absurd hmem (List.not_mem_nil u)
  obtain ⟨-, hsub⟩ := counts_zero_of_no_user hnone
  have hpeople : peopleFor db sid = [] := by
    unfold peopleFor
    rw [hf]
    rfl
  have hres : getResults (prefsFor db sid) (peopleFor db sid) =
      some { pairs := [], unpaired := none, totalCompatibility := 0,
             averageCompatibility := 0, numPairs := 0 } := by
    rw [hpeople]
    unfold getResults
    rw [List.dedup_nil]
    simpa using getResultsFrom_short (prefsFor db sid) [] (by simp)
  unfold getResultsEndpoint
  rw [h, hsub, if_neg (by omega), hres]

/-- C3 witness: the ghost session of `ghostDB`. -/
theorem C3_gate_without_nonempty_check_witness :
    totalCount ghostDB "ghost" = 0 ∧
      getResultsEndpoint ghostDB "ghost" =
        ResultsResponse.ok { pairs := [], unpaired := none, totalCompatibility := 0,
                             averageCompatibility := 0, numPairs := 0 } :=
  ⟨by decide, C3_gate_without_nonempty_check ghostDB "ghost" (by decide)⟩

/-- C4 (amended): a submission under a session id no user row carries is not
rejected and is not a no-op: the endpoint still deletes and inserts the
submitter's rows under that phantom id, flips no flag (there is no user row
to flip), and reports success with counts 0/0 and all_submitted true. -/
theorem C4_unknown_session_accepted (db : DB) (sid user : String)
    (m : List (String × Int)) (hs : sid ≠ "") (hu : user ≠ "") (hm : m ≠ [])
    (hno : ∀ u ∈ db.users, u.sessionId ≠ sid) :
    submitPreferences db sid user m =
      ({ users := db.users,
         prefs := db.prefs.filter (fun r => !(r.sessionId == sid && r.personFrom == user))
           ++ validRows sid user m },
       SubmitResponse.ok 0 0 true) := by
  have hnone : ∀ u ∈ db.users, (u.sessionId == sid) = false := by
    intro u hu
    simp [hno u hu]
  have hmapid : ∀ (l : List UserRow), (∀ u ∈ l,
      (if u.sessionId == sid && u.username == user then
        { u with hasSubmitted := true } else u) = u) → l.map (fun u =>
      if u.sessionId == sid && u.username == user then
        { u with hasSubmitted := true } else u) = l := by
    intro l
    induction l with
    | nil => intro _; rfl
    | cons a t iht =>
      intro hl
      rw [List.map_cons, hl a (by simp), iht (fun u hu => hl u (by simp [hu]))]
  have husers : updatedUsers db sid user = db.users := by
    unfold updatedUsers
    apply hmapid
    intro u hu
    rw [if_neg]
    simp [hnone u hu]
  have htc : totalCount (submitDB db sid user m) sid = 0 := by
    show ((updatedUsers db sid user).filter (fun u => u.sessionId == sid)).length = 0
    rw [husers, List.filter_eq_nil_iff.mpr (fun u hu => by simp [hnone u hu])]
    rfl
  have hsc : submittedCount (submitDB db sid user m) sid = 0 := by
    show ((updatedUsers db sid user).filter
      (fun u => u.sessionId == sid && u.hasSubmitted)).length = 0
    rw [husers, List.filter_eq_nil_iff.mpr (fun u hu => by simp [hnone u hu])]
    rfl
  rw [Prod.ext_iff]
  constructor
  · rw [submit_fst hs hu hm]
    unfold submitDB
    rw [husers]
  · rw [submit_snd hs hu hm, htc, hsc]
    rfl

/-- C4 witness: the phantom session of `ghostDB`. -/
theorem C4_unknown_session_accepted_witness :
    ("ghost" : String) ≠ "" ∧ ("Bob" : String) ≠ "" ∧
      ([("Alice", 50)] : List (String × Int)) ≠ [] ∧
      (∀ u ∈ ghostDB.users, u.sessionId ≠ "ghost") ∧
      submitPreferences ghostDB "ghost" "Bob" [("Alice", 50)] =
        ({ users := ghostDB.users,
           prefs := ghostDB.prefs.filter
               (fun r => !(r.sessionId == "ghost" && r.personFrom == "Bob"))
             ++ validRows "ghost" "Bob" [("Alice", 50)] },
         SubmitResponse.ok 0 0 true) :=
  ⟨by decide, by decide, by decide, by decide,
   C4_unknown_session_accepted ghostDB "ghost" "Bob" [("Alice", 50)]
     (by decide) (by decide) (by decide) (by decide)⟩

/-- C6: for a non-empty submitted mapping by an existing participant, exactly
the entries with a target other than the submitter and a score in [0, 100]
are stored as that submitter's rows; invalid entries are silently dropped —
the response is still the 200 payload, not an error — and the submitter's
has-submitted flag is set true no matter how many entries were dropped. -/
theorem C6_per_entry_filtering (db : DB) (sid user : String)
    (m : List (String × Int)) (hs : sid ≠ "") (hu : user ≠ "") (hm : m ≠ [])
    (hkeys : (m.map Prod.fst).Nodup)
    (hex : ∃ u ∈ db.users, u.sessionId = sid ∧ u.username = user) :
    rowsFor (submitPreferences db sid user m).1 sid user = validRows sid user m
      ∧ (∃ u ∈ (submitPreferences db sid user m).1.users,
          u.sessionId = sid ∧ u.username = user ∧ u.hasSubmitted = true)
      ∧ (submitPreferences db sid user m).2 ≠ SubmitResponse.invalidInput := by
  refine ⟨?_, ?_, ?_⟩
  · rw [submit_fst hs hu hm, rowsFor_submitDB]
  · obtain ⟨u, hu0, h1, h2⟩ := hex
    refine ⟨{ u with hasSubmitted := true }, ?_, h1, h2, rfl⟩
    rw [submit_fst hs hu hm]
    show { u with hasSubmitted := true } ∈ updatedUsers db sid user
    unfold updatedUsers
    apply List.mem_map.mpr
    exact ⟨u, hu0, by simp [h1, h2]⟩
  · rw [submit_snd hs hu hm]
    simp

/-- A roster of two for session "s1"; no ratings yet. -/
def demoDB : DB :=
  { users := [{ sessionId := "s1", username := "Alice", hasSubmitted := false },
              { sessionId := "s1", username := "Bob", hasSubmitted := false }],
    prefs := [] }

/-- Alice's submission: an out-of-range score (150), a valid entry, and a
self-rating — the middle one is the only valid entry. -/
def demoRatings : List (String × Int) := [("Bob", 150), ("Carol", 70), ("Alice", 50)]

/-- C6 witness: the §8 drop scenario. -/
theorem C6_per_entry_filtering_witness :
    ("s1" : String) ≠ "" ∧ ("Alice" : String) ≠ "" ∧ demoRatings ≠ [] ∧
      (demoRatings.map Prod.fst).Nodup ∧
      (∃ u ∈ demoDB.users, u.sessionId = "s1" ∧ u.username = "Alice") ∧
      (rowsFor (submitPreferences demoDB "s1" "Alice" demoRatings).1 "s1" "Alice"
          = validRows "s1" "Alice" demoRatings
        ∧ (∃ u ∈ (submitPreferences demoDB "s1" "Alice" demoRatings).1.users,
            u.sessionId = "s1" ∧ u.username = "Alice" ∧ u.hasSubmitted = true)
        ∧ (submitPreferences demoDB "s1" "Alice" demoRatings).2
            ≠ SubmitResponse.invalidInput) :=
  ⟨by decide, by decide, by decide, by decide, by decide,
   C6_per_entry_filtering demoDB "s1" "Alice" demoRatings
     (by decide) (by decide) (by decide) (by decide) (by decide)⟩

/-- C7: submitting twice for the same (session, user) leaves exactly the
second submission's valid entries as that submitter's stored rows — the
delete-then-insert transaction replaces everything the first submission
stored, so none of its entries survive (full replace, not a per-target
merge). -/
theorem C7_replace_on_resubmit (db : DB) (sid user : String)
    (m1 m2 : List (String × Int)) (hs : sid ≠ "") (hu : user ≠ "")
    (hm1 : m1 ≠ []) (hm2 : m2 ≠ [])
    (hkeys1 : (m1.map Prod.fst).Nodup) (hkeys2 : (m2.map Prod.fst).Nodup) :
    rowsFor (submitPreferences (submitPreferences db sid user m1).1 sid user m2).1 sid user
      = validRows sid user m2 := by
  rw [submit_fst hs hu hm2, rowsFor_submitDB]

/-- C7 witness: resubmission overwrites the first row set. -/
theorem C7_replace_on_resubmit_witness :
    ("s1" : String) ≠ "" ∧ ("Alice" : String) ≠ "" ∧
      ([("Bob", 40)] : List (String × Int)) ≠ [] ∧
      ([("Bob", 90), ("Carol", 20)] : List (String × Int)) ≠ [] ∧
      (([("Bob", 40)] : List (String × Int)).map Prod.fst).Nodup ∧
      (([("Bob", 90), ("Carol", 20)] : List (String × Int)).map Prod.fst).Nodup ∧
      rowsFor (submitPreferences
          (submitPreferences demoDB "s1" "Alice" [("Bob", 40)]).1
          "s1" "Alice" [("Bob", 90), ("Carol", 20)]).1 "s1" "Alice"
        = validRows "s1" "Alice" [("Bob", 90), ("Carol", 20)] :=
  ⟨by decide, by decide, by decide, by decide, by decide, by decide,
   C7_replace_on_resubmit demoDB "s1" "Alice" [("Bob", 40)] [("Bob", 90), ("Carol", 20)]
     (by decide) (by decide) (by decide) (by decide) (by decide) (by decide)⟩

end PairingApp
